import Mathlib

/-!
# Verification of the phimg group-image-search plugin core

Shallow embedding of `src/index.ts` (koishi-plugin-phimg): per-group
configuration store, tag-set composition, search response handling and the
random-selection policy, plus the command action's priority-ordered option
dispatch.  External collaborators (the database, the HTTP client, the random
number generator) are modelled as explicit state / oracle parameters.
-/

set_option maxRecDepth 10000

/-- System configuration (`Config` in the source, loaded once at startup). -/
structure Config where
  apiKey : String
  apiUrl : String
  defaultTags : List String
  enabledByDefault : Bool
  useGlobalTagsByDefault : Bool
deriving DecidableEq

/-- Per-group configuration record (`GroupConfig` in the source).  The
auto-incremented numeric `id` column is a persistence artifact and is not
modelled; records are keyed by `groupId`. -/
structure GroupConfig where
  groupId : String
  enabled : Bool
  useGlobalTags : Bool
  customTags : List String
deriving DecidableEq

/-- The backing `phimg_config` table: an ordered collection of records. -/
abbrev Store := List GroupConfig

/-- `ctx.database.get('phimg_config', { groupId })` returns the matching
records; the source destructures the first one. -/
def findGroup (store : Store) (groupId : String) : Option GroupConfig :=
  store.find? (fun g => g.groupId == groupId)

/-- The default record synthesized by `getGroupConfig` for a group with no
stored record. -/
def defaultGroupConfig (cfg : Config) (groupId : String) : GroupConfig :=
  { groupId := groupId
    enabled := cfg.enabledByDefault
    useGlobalTags := cfg.useGlobalTagsByDefault
    customTags := [] }

/-- `getGroupConfig` from the source: return the stored record if present,
otherwise create (append) the default record and return it.  The database
side effect is made explicit by returning the new store. -/
def getGroupConfig (cfg : Config) (store : Store) (groupId : String) :
    GroupConfig × Store :=
  match findGroup store groupId with
  | some groupConfig => (groupConfig, store)
  | none => (defaultGroupConfig cfg groupId, store ++ [defaultGroupConfig cfg groupId])

/-- The partial-record argument of `ctx.database.set` (`Partial<GroupConfig>`):
each field is either absent or an overriding value. -/
structure PartialGroupConfig where
  enabled : Option Bool
  useGlobalTags : Option Bool
  customTags : Option (List String)
deriving DecidableEq

/-- Merge a partial record into a stored record (the semantics of
`database.set` on one matching row). -/
def applyPartial (data : PartialGroupConfig) (g : GroupConfig) : GroupConfig :=
  { g with
    enabled := data.enabled.getD g.enabled
    useGlobalTags := data.useGlobalTags.getD g.useGlobalTags
    customTags := data.customTags.getD g.customTags }

/-- `updateGroupConfig` from the source:
`ctx.database.set('phimg_config', { groupId }, data)` merges `data` into every
record whose `groupId` matches. -/
def updateGroupConfig (store : Store) (groupId : String)
    (data : PartialGroupConfig) : Store :=
  store.map (fun g => if g.groupId == groupId then applyPartial data g else g)

/-- JavaScript `s.split(',')` at the character level: `[]` would never arise
(`''.split(',')` is `['']`). -/
def splitCommaAux : List Char → List (List Char)
  | [] => [[]]
  | c :: rest =>
      match splitCommaAux rest with
      | [] => [[]]
      | piece :: pieces =>
          if c == ',' then [] :: piece :: pieces
          else (c :: piece) :: pieces

/-- JavaScript `s.split(',')`. -/
def jsSplitComma (s : String) : List String :=
  (splitCommaAux s.data).map (fun cs => String.mk cs)

/-- JavaScript `s.trim()`: strip leading and trailing whitespace. -/
def jsTrim (s : String) : String :=
  String.mk
    (((s.data.dropWhile Char.isWhitespace).reverse.dropWhile
        Char.isWhitespace).reverse)

/-- JavaScript `s.endsWith(suffix)`. -/
def jsEndsWith (s suffix : String) : Bool :=
  suffix.data.isSuffixOf s.data

/-- JavaScript `s.split(',').map(t => t.trim()).filter(t => t)`: split on
comma, trim each piece, drop empty strings. -/
def parseTags (s : String) : List String :=
  ((jsSplitComma s).map jsTrim).filter (fun t => !(t == ""))

/-- One step of building a JavaScript `Set` from a list: keep the first
occurrence of each element. -/
def jsStep (acc : List String) (t : String) : List String :=
  if t ∈ acc then acc else acc ++ [t]

/-- JavaScript `[...new Set(l)]`: deduplicate, keeping the first occurrence of
each element, preserving order. -/
def jsSetDedup (l : List String) : List String :=
  List.foldl jsStep [] l

/-- Tag composition of the search path (lines 218-222 of the source):
`[...new Set([...globalTags, ...groupTags, ...userTags])]` with
`globalTags = useGlobalTags ? config.defaultTags : []`. -/
def composeTags (cfg : Config) (gc : GroupConfig) (userInput : String) :
    List String :=
  let userTags := parseTags userInput
  let globalTags := if gc.useGlobalTags then cfg.defaultTags else []
  let groupTags := gc.customTags
  jsSetDedup (globalTags ++ groupTags ++ userTags)

/-- The `--add` branch: `[...new Set([...customTags, ...tagsToModify])]`. -/
def addTags (custom : List String) (raw : String) : List String :=
  jsSetDedup (custom ++ parseTags raw)

/-- The `--rm` branch: `customTags.filter(t => !tagsToModify.includes(t))`. -/
def rmTags (custom : List String) (raw : String) : List String :=
  custom.filter (fun t => !((parseTags raw).contains t))

/-- The named representation sizes of a board candidate used by the source
(`representations.full`, `.medium`, `.large`), each a URL string. -/
structure Representations where
  full : String
  medium : String
  large : String
deriving DecidableEq

/-- A candidate returned by the image board (element of the JSON `images`
array); only the fields the source reads are modelled. -/
structure Image where
  id : Nat
  score : Int
  tags : List String
  representations : Representations
deriving DecidableEq

/-- The record returned by `selectRandomImage`. -/
structure SelectedImage where
  url : String
  score : Int
  id : Nat
  tags : List String
deriving DecidableEq

/-- Outcome of the `axios.get` call, supplied as an oracle.
`success total images` models a 2xx JSON body (`response.data.total`,
`response.data.images`).  `failure message responseStatus responseBody`
models a rejected promise: `message` is the error object's own message (for
an HTTP error axios generates it from the status code), `responseStatus` is
`error.response?.status` (`none` for transport failures such as timeouts),
and `responseBody` carries the board's response body — including any error
message the board wrote there — which the source never reads. -/
inductive HttpOutcome where
  | success (total : Nat) (images : List Image)
  | failure (message : String) (responseStatus : Option Nat)
      (responseBody : Option String)
deriving DecidableEq

/-- An error object as seen by the `catch` block of `searchImages`: its
`message` and its optional `response?.status`. -/
structure CaughtError where
  message : String
  responseStatus : Option Nat
deriving DecidableEq

/-- The query string assembled by `searchImages` (URLSearchParams in order:
`q`, optional `key`, `sf`, `sd`, `per_page`). -/
def buildQueryParams (tags : List String) (apiKey : String) :
    List (String × String) :=
  [("q", String.intercalate "," tags)]
    ++ (if apiKey == "" then [] else [("key", apiKey)])
    ++ [("sf", "score"), ("sd", "desc"), ("per_page", "50")]

/-- The `try` body of `searchImages`: a zero-total 2xx body throws
`Error('未找到匹配的图片')` (an error with no attached response), any other
2xx body yields the images, and a rejected request throws the transport
error itself. -/
def searchTryBody : HttpOutcome → Except CaughtError (List Image)
  | .success total images =>
      if total == 0 then .error ⟨"未找到匹配的图片", none⟩ else .ok images
  | .failure message responseStatus _responseBody =>
      .error ⟨message, responseStatus⟩

/-- The `catch` block of `searchImages`: a 404 response is rethrown as the
no-results message, anything else as `new Error(error.message)`. -/
def searchCatchBlock (e : CaughtError) : String :=
  if e.responseStatus == some 404 then "未找到匹配的图片" else e.message

/-- `searchImages` from the source: builds the query, performs the request
(whose outcome is the oracle argument), and normalises errors through the
catch block.  The result is the list of images or the message of the error
thrown to the caller. -/
def searchImages (tags : List String) (apiKey : String)
    (outcome : HttpOutcome) : Except String (List Image) :=
  let _params := buildQueryParams tags apiKey
  match searchTryBody outcome with
  | .ok images => .ok images
  | .error e => .error (searchCatchBlock e)

/-- `selectRandomImage` from the source, with the random index
`randomInt(0, images.length)` supplied as the argument `k`.  For `k` within
bounds it builds the result record; an out-of-range `k` (only possible when
`images` is empty, where `randomInt(0, 0)` throws) yields `none`. -/
def selectRandomImage (images : List Image) (k : Nat) :
    Option SelectedImage :=
  match images.get? k with
  | none => none
  | some selected =>
      let file := selected.representations.full
      some
        { url := if jsEndsWith file ".webm" then
                   selected.representations.medium
                 else selected.representations.large
          score := selected.score
          id := selected.id
          tags := selected.tags }


/-- JavaScript truthiness of an optional string (`undefined` and `''` are
falsy). -/
def truthyText : Option String → Bool
  | none => false
  | some s => !(s == "")

/-- The parsed options object of the `搜图` command.  A boolean flag is
`true` when supplied; `add`/`rm` carry their text value when supplied.
Field order follows the `.option(...)` declarations in the source; the
source's `on`/`off` keys are spelled `onOpt`/`offOpt` because `on` is a
reserved token here. -/
structure Options where
  add : Option String
  rm : Option String
  tags : Bool
  onOpt : Bool
  offOpt : Bool
  onglobal : Bool
  offglobal : Bool
  status : Bool
deriving DecidableEq

/-- `Object.keys(options).length === 0`: no option key is present. -/
def Options.isEmpty (o : Options) : Bool :=
  o.add == none && o.rm == none && !o.tags && !o.onOpt && !o.offOpt
    && !o.onglobal && !o.offglobal && !o.status

/-- An options object with no key supplied. -/
def noOptions : Options :=
  { add := none, rm := none, tags := false, onOpt := false, offOpt := false
    onglobal := false, offglobal := false, status := false }

/-- The message returned by the command action: plain text, a video segment,
an image segment followed by the info block, or a thrown runtime exception
(environment-defined message) when the random index is out of range. -/
inductive ActionResult where
  | text (s : String)
  | videoSegment (url : String)
  | imageSegment (url : String) (info : String)
  | runtimeError
deriving DecidableEq

/-- The environment inputs of one search: the HTTP outcome and the value
produced by `randomInt(0, images.length)`. -/
structure SearchOracle where
  outcome : HttpOutcome
  randomIndex : Nat
deriving DecidableEq

/-- `customTags.join(', ') || '无'`. -/
def joinOrNone (l : List String) : String :=
  let j := String.intercalate ", " l
  if j == "" then "无" else j

def groupOnlyMsg : String := "搜图功能仅限群聊使用"

def permSearchMsg : String := "只有管理员可以修改搜图设置"

def permGlobalMsg : String := "只有管理员可以修改全局标签设置"

def permTagsMsg : String := "只有管理员可以管理标签"

def notEnabledMsg : String := "搜图未在本群开启，管理员请用 “搜图 --on” 启动"

def noResultsMsg : String := "未找到匹配的图片"

/-- The `helpMessage` constant of the source. -/
def helpMessage : String :=
  "用法: 搜图 [--add [&lt;tags&gt; ...]] [--rm [&lt;tags&gt; ...]] [--tags] [--on] [--off] [--status] [--onglobal] [--offglobal] [&lt;tags&gt;]\n选项:\n  --add [&lt;tags&gt; ...]       添加标签，多个标签用逗号分隔\n  --rm [&lt;tags&gt; ...]        删除标签，多个标签用逗号分隔\n  --tags            查看当前标签列表\n  --on              开启搜图功能\n  --off             关闭搜图功能\n  --onglobal        启用全局标签\n  --offglobal       禁用全局标签\n  --status          查看当前设置\n—————\nPowered by\nPhimg for Koishi @ CyanFlow"

/-- The `--status` reply template. -/
def statusMessage (gc : GroupConfig) : String :=
  "当前群聊搜图功能状态：\n启用: " ++ toString gc.enabled
    ++ "\n自定义标签: " ++ joinOrNone gc.customTags
    ++ "\n全局标签: " ++ (if gc.useGlobalTags then "启用" else "禁用")

/-- The info block appended to an image reply. -/
def infoText (imgId : Nat) (score : Int) (allTags : List String) : String :=
  "id: " ++ toString imgId ++ "\nscore: " ++ toString score
    ++ "\ntags: " ++ String.intercalate ", " allTags

/-- The `.action(...)` body of the `搜图` command, embedded as a function of
the system config, the current store, the session (`guildId`, the caller's
`user?.authority`), the parsed options, the free-text `tags` argument and
the search oracle.  Returns the reply and the store after the invocation. -/
def commandAction (cfg : Config) (store : Store) (guildId : Option String)
    (authority : Option Nat) (opts : Options) (text : Option String)
    (oracle : SearchOracle) : ActionResult × Store :=
  match guildId with
  | none => (.text groupOnlyMsg, store)
  | some groupId =>
    match getGroupConfig cfg store groupId with
    | (groupConfig, store1) =>
      if !truthyText text && opts.isEmpty then
        (.text helpMessage, store1)
      else
        let auth := authority.getD 0
        if opts.status then
          (.text (statusMessage groupConfig), store1)
        else if opts.onOpt || opts.offOpt then
          if auth < 2 then (.text permSearchMsg, store1)
          else
            let enabled := opts.onOpt
            (.text ("搜图功能已在本群" ++ if enabled then "开启" else "关闭"),
             updateGroupConfig store1 groupId ⟨some enabled, none, none⟩)
        else if !groupConfig.enabled then
          (.text notEnabledMsg, store1)
        else if opts.onglobal || opts.offglobal then
          if auth < 2 then (.text permGlobalMsg, store1)
          else
            let useGlobalTags := opts.onglobal
            (.text ("全局标签已" ++ if useGlobalTags then "启用" else "禁用"),
             updateGroupConfig store1 groupId ⟨none, some useGlobalTags, none⟩)
        else if truthyText opts.add || truthyText opts.rm then
          if auth < 2 then (.text permTagsMsg, store1)
          else
            let raw := if truthyText opts.add then opts.add.getD ""
                       else opts.rm.getD ""
            if truthyText opts.add then
              let newTags := addTags groupConfig.customTags raw
              (.text ("添加成功，本群标签现为: " ++ joinOrNone newTags),
               updateGroupConfig store1 groupId ⟨none, none, some newTags⟩)
            else
              let newTags := rmTags groupConfig.customTags raw
              (.text ("删除成功，本群标签现为: " ++ joinOrNone newTags),
               updateGroupConfig store1 groupId ⟨none, none, some newTags⟩)
        else if opts.tags then
          (.text ("当前群聊内置标签: " ++ joinOrNone groupConfig.customTags), store1)
        else if !truthyText text then
          (.text helpMessage, store1)
        else
          let allTags := composeTags cfg groupConfig (text.getD "")
          match searchImages allTags cfg.apiKey oracle.outcome with
          | .error msg => (.text msg, store1)
          | .ok images =>
            match selectRandomImage images oracle.randomIndex with
            | none => (.runtimeError, store1)
            | some selected =>
              if jsEndsWith selected.url ".webm" then
                (.videoSegment selected.url, store1)
              else
                (.imageSegment selected.url
                   (infoText selected.id selected.score allTags), store1)

/-- Modelled from the spec ("Deduplication is set-based (case-sensitive,
exact string match) — order of first occurrence is preserved"): keep each
element's first occurrence and drop its later duplicates.  Stated
independently of the source's `Set`-spread idiom so the two can be proved
equal. -/
def keepFirstDedup : List String → List String
  | [] => []
  | t :: rest => t :: keepFirstDedup (rest.filter (fun x => !(x == t)))
termination_by l => l.length
decreasing_by
  simp only [List.length_cons]
  exact Nat.lt_succ_of_le (List.length_filter_le _ _)

/-- Board responses the spec groups under "no results": a 2xx body reporting
`total: 0`, or an HTTP 404 rejection. -/
def isNoResultsOutcome : HttpOutcome → Bool
  | .success total _ => total == 0
  | .failure _ responseStatus _ => responseStatus == some 404

/-! ### Concrete fixtures used by counterexamples and witnesses -/

/-- A system configuration with the source's defaults (global tag `safe`). -/
def exCfg : Config :=
  ⟨"", "https://derpibooru.org/api/v1/json/search/images?", ["safe"], true, true⟩

/-- An enabled group `g1` with custom tag `art` and global tags on. -/
def exGC : GroupConfig := ⟨"g1", true, true, ["art"]⟩

/-- The same group with search disabled. -/
def exDisabledGC : GroupConfig := ⟨"g1", false, true, ["art"]⟩

/-- A static-image candidate whose own tag list is `["pony", "cute"]`. -/
def exImage : Image :=
  ⟨1234, 100, ["pony", "cute"],
   ⟨"https://x/full.png", "https://x/medium.png", "https://x/large.png"⟩⟩

/-- A video candidate (full representation ends in `.webm`). -/
def exVideoImage : Image :=
  ⟨77, 5, ["animated"], ⟨"https://x/v.webm", "https://x/m.mp4", "https://x/l.png"⟩⟩

/-- Options object carrying only `--offglobal`. -/
def offglobalOpts : Options :=
  ⟨none, none, false, false, false, false, true, false⟩

/-- Options object carrying only `--on`. -/
def onOpts : Options :=
  ⟨none, none, false, true, false, false, false, false⟩

/-- Options object carrying only `--off`. -/
def offOpts : Options :=
  ⟨none, none, false, false, true, false, false, false⟩

/-- Options object carrying only `--status`. -/
def statusOpts : Options :=
  ⟨none, none, false, false, false, false, false, true⟩

/-- An arbitrary oracle for invocations that never reach the network. -/
def exOracle : SearchOracle := ⟨.success 1 [exImage], 0⟩

section DedupLemmas

theorem mem_foldl_jsStep (l acc : List String) (a : String) :
    a ∈ List.foldl jsStep acc l ↔ a ∈ acc ∨ a ∈ l := by
  induction l generalizing acc with
  | nil => simp
  | cons t l ih =>
    simp only [List.foldl_cons, ih, jsStep, List.mem_cons]
    by_cases ht : t ∈ acc
    · simp only [if_pos ht]
      constructor
      · rintro (h | h)
        · exact Or.inl h
        · exact Or.inr (Or.inr h)
      · rintro (h | h | h)
        · exact Or.inl h
        · exact Or.inl (h ▸ ht)
        · exact Or.inr h
    · simp only [if_neg ht, List.mem_append, List.mem_singleton]
      tauto

theorem nodup_foldl_jsStep (l : List String) :
    ∀ acc : List String, acc.Nodup → (List.foldl jsStep acc l).Nodup := by
  induction l with
  | nil => intro acc h; simpa using h
  | cons t l ih =>
    intro acc h
    simp only [List.foldl_cons]
    apply ih
    unfold jsStep
    by_cases ht : t ∈ acc
    · simpa [if_pos ht] using h
    · rw [if_neg ht]
      simp [List.nodup_append, h, ht]

theorem sublist_foldl_jsStep (l : List String) :
    ∀ acc : List String, List.Sublist (List.foldl jsStep acc l) (acc ++ l) := by
  induction l with
  | nil => intro acc; simp
  | cons t l ih =>
    intro acc
    simp only [List.foldl_cons]
    refine (ih (jsStep acc t)).trans ?_
    unfold jsStep
    by_cases ht : t ∈ acc
    · rw [if_pos ht]
      exact List.Sublist.append_left (List.sublist_cons_self t l) acc
    · rw [if_neg ht]
      simp [List.append_assoc]

theorem foldl_jsStep_of_nodup (l : List String) :
    ∀ acc : List String, (acc ++ l).Nodup → List.foldl jsStep acc l = acc ++ l := by
  induction l with
  | nil => intro acc _; simp
  | cons t l ih =>
    intro acc h
    have ht : t ∉ acc := by
      rcases List.nodup_append.mp h with ⟨_, _, hdisj⟩
      intro hmem
      exact hdisj hmem (List.mem_cons_self t l)
    simp only [List.foldl_cons, jsStep, if_neg ht]
    have : acc ++ [t] ++ l = acc ++ t :: l := by simp
    rw [ih (acc ++ [t]) (this ▸ h), this]

theorem jsSetDedup_nodup (l : List String) : (jsSetDedup l).Nodup :=
  nodup_foldl_jsStep l [] List.nodup_nil

theorem mem_jsSetDedup (l : List String) (a : String) :
    a ∈ jsSetDedup l ↔ a ∈ l := by
  unfold jsSetDedup
  rw [mem_foldl_jsStep]
  simp

theorem jsSetDedup_sublist (l : List String) : List.Sublist (jsSetDedup l) l := by
  have := sublist_foldl_jsStep l []
  simpa [jsSetDedup] using this

theorem jsSetDedup_of_nodup (l : List String) (h : l.Nodup) :
    jsSetDedup l = l := by
  have := foldl_jsStep_of_nodup l [] (by simpa using h)
  simpa [jsSetDedup] using this

theorem keepFirstDedup_cons (t : String) (rest : List String) :
    keepFirstDedup (t :: rest)
      = t :: keepFirstDedup (rest.filter (fun x => !(x == t))) := by
  simp [keepFirstDedup]

theorem foldl_jsStep_eq_keepFirst (l : List String) :
    ∀ acc : List String,
      List.foldl jsStep acc l
        = acc ++ keepFirstDedup (l.filter (fun x => !(decide (x ∈ acc)))) := by
  induction l with
  | nil => intro acc; simp [keepFirstDedup]
  | cons t l ih =>
    intro acc
    simp only [List.foldl_cons, List.filter_cons]
    by_cases ht : t ∈ acc
    · rw [jsStep, if_pos ht, if_neg (by simp [ht])]
      exact ih acc
    · rw [jsStep, if_neg ht, if_pos (by simp [ht])]
      rw [ih (acc ++ [t]), keepFirstDedup_cons, List.filter_filter,
        List.append_assoc, List.singleton_append]
      have hpred : ∀ x ∈ l,
          (!(decide (x ∈ acc ++ [t]))) = ((!(x == t)) && !(decide (x ∈ acc))) := by
        intro x _
        by_cases hxt : x = t
        · simp [hxt]
        · by_cases hxa : x ∈ acc
          · simp [hxa, hxt]
          · simp [hxa, hxt]
      rw [List.filter_congr hpred]

theorem jsSetDedup_eq_keepFirst (l : List String) :
    jsSetDedup l = keepFirstDedup l := by
  have h := foldl_jsStep_eq_keepFirst l []
  simpa [jsSetDedup] using h

end DedupLemmas

section StoreLemmas

theorem getGroupConfig_found (cfg : Config) (store : Store) (groupId : String)
    (gc : GroupConfig) (h : findGroup store groupId = some gc) :
    getGroupConfig cfg store groupId = (gc, store) := by
  simp [getGroupConfig, h]

theorem findGroup_append_of_none (store l : Store) (groupId : String)
    (h : findGroup store groupId = none) :
    findGroup (store ++ l) groupId = findGroup l groupId := by
  unfold findGroup at h ⊢
  simp [List.find?_append, h]

theorem filter_eq_nil_of_find_none (store : Store) (groupId : String)
    (h : findGroup store groupId = none) :
    store.filter (fun g => g.groupId == groupId) = [] := by
  unfold findGroup at h
  rw [List.find?_eq_none] at h
  rw [List.filter_eq_nil_iff]
  exact fun a ha => by simpa using h a ha

theorem applyPartial_groupId (data : PartialGroupConfig) (g : GroupConfig) :
    (applyPartial data g).groupId = g.groupId := rfl

theorem findGroup_update (store : Store) (groupId : String)
    (data : PartialGroupConfig) :
    findGroup (updateGroupConfig store groupId data) groupId
      = (findGroup store groupId).map (applyPartial data) := by
  unfold findGroup updateGroupConfig
  induction store with
  | nil => rfl
  | cons g rest ih =>
    simp only [List.map_cons]
    cases hg : (g.groupId == groupId) with
    | true =>
      have hg2 : ((applyPartial data g).groupId == groupId) = true := by
        rw [applyPartial_groupId]; exact hg
      simp [hg, hg2, -List.find?_map]
    | false =>
      have hg2 : ((applyPartial data g).groupId == groupId) = false := by
        rw [applyPartial_groupId]; exact hg
      simp [hg, hg2, -List.find?_map] at ih ⊢
      exact ih

theorem truthyText_ne_none (o : Option String) (h : truthyText o = true) :
    (o == none) = false := by
  cases o with
  | none => simp [truthyText] at h
  | some s => rfl

end StoreLemmas

/-- C1 (counterexample): the spec states the selection record's `tags` field
is the EffectiveTagSet composed for the query, not the image's own tag list.
`selectRandomImage` in fact returns `selected.tags`, the image's own list:
for the image tagged `["pony", "cute"]` under an effective set
`["safe", "art", "cute"]` the two differ. -/
theorem claim_C1_counterexample :
    (selectRandomImage [exImage] 0).map SelectedImage.tags
        = some ["pony", "cute"]
    ∧ composeTags exCfg exGC "cute" = ["safe", "art", "cute"]
    ∧ (selectRandomImage [exImage] 0).map SelectedImage.tags
        ≠ some (composeTags exCfg exGC "cute") := by decide

/-- C1 (amended): the record returned by the selection policy carries the
selected image's own tag list in its `tags` field. -/
theorem claim_C1_amended (images : List Image) (k : Nat)
    (h : k < images.length) :
    ∃ r, selectRandomImage images k = some r
      ∧ r.tags = (images.get ⟨k, h⟩).tags := by
  unfold selectRandomImage
  rw [List.get?_eq_get h]
  exact ⟨_, rfl, rfl⟩

/-- Witness for the amended C1 at a concrete one-image list. -/
theorem claim_C1_amended_witness :
    ∃ r, selectRandomImage [exImage] 0 = some r
      ∧ r.tags = (([exImage] : List Image).get ⟨0, by decide⟩).tags :=
  claim_C1_amended [exImage] 0 (by decide)

/-- C2 (counterexample): `add` then `rm` of the same valid tag is not a
round-trip for every state: if the tag is already in `customTags`, the `add`
is absorbed by set-union and the `rm` then removes the original occurrence. -/
theorem claim_C2_counterexample :
    parseTags "art" = ["art"]
    ∧ rmTags (addTags ["art"] "art") "art" = []
    ∧ ([] : List String) ≠ ["art"] := by decide

/-- C2 (amended): `add` of a valid single tag followed by `rm` of the same
tag restores `customTags`, provided the stored list is duplicate-free and
does not already contain the tag. -/
theorem claim_C2_amended (custom : List String) (raw t : String)
    (hnodup : custom.Nodup) (hparse : parseTags raw = [t])
    (hmem : t ∉ custom) :
    rmTags (addTags custom raw) raw = custom := by
  have hadd : addTags custom raw = custom ++ [t] := by
    rw [addTags, hparse]
    exact jsSetDedup_of_nodup _ (by simp [List.nodup_append, hnodup, hmem])
  rw [rmTags, hadd, hparse, List.filter_append]
  have hfil : List.filter (fun x => !(([t] : List String).contains x)) [t]
      = [] := by simp
  rw [hfil, List.append_nil, List.filter_eq_self]
  intro a ha
  have hne : a ≠ t := fun e => hmem (e ▸ ha)
  simp [hne]

/-- Witness for the amended C2: adding then removing a fresh tag restores
the prior custom list. -/
theorem claim_C2_amended_witness :
    rmTags (addTags ["art"] "cute") "cute" = ["art"] :=
  claim_C2_amended ["art"] "cute" "cute" (by decide) (by decide) (by decide)

/-- C7: tag composition is the duplicate-free union, in first-occurrence
order, of globals (when enabled), then custom tags, then parsed user tags:
the result has no duplicates, is a sublist (order-preserving selection) of
the concatenation, contains exactly its members, and equals the
keep-the-first-occurrence deduplication of the concatenation — the last
conjunct pins down the first-occurrence order exactly.  Being a pure
function of its inputs, repeating it on identical input trivially yields
the identical sequence. -/
theorem claim_C7 (cfg : Config) (gc : GroupConfig) (s : String) :
    (composeTags cfg gc s).Nodup
    ∧ List.Sublist (composeTags cfg gc s)
        ((if gc.useGlobalTags then cfg.defaultTags else [])
          ++ gc.customTags ++ parseTags s)
    ∧ (∀ t, (t ∈ composeTags cfg gc s ↔
        t ∈ (if gc.useGlobalTags then cfg.defaultTags else [])
          ∨ t ∈ gc.customTags ∨ t ∈ parseTags s))
    ∧ composeTags cfg gc s
        = keepFirstDedup
            ((if gc.useGlobalTags then cfg.defaultTags else [])
              ++ gc.customTags ++ parseTags s) := by
  refine ⟨jsSetDedup_nodup _, jsSetDedup_sublist _, fun t => ?_,
    jsSetDedup_eq_keepFirst _⟩
  unfold composeTags
  rw [mem_jsSetDedup]
  simp [List.mem_append, or_assoc]

/-- C8: for an in-range index the selection returns the record derived from
the element at that index of the input list — medium representation when the
full one ends in `.webm`, large otherwise. -/
theorem claim_C8 (images : List Image) (k : Nat) (h : k < images.length) :
    ∃ img ∈ images,
      selectRandomImage images k = some
        { url := if jsEndsWith img.representations.full ".webm" then
                   img.representations.medium
                 else img.representations.large
          score := img.score
          id := img.id
          tags := img.tags } := by
  refine ⟨images.get ⟨k, h⟩, List.get_mem images k h, ?_⟩
  unfold selectRandomImage
  rw [List.get?_eq_get h]

/-- Witness for C8 on a one-element list whose full representation is a
`.webm`: the selected url is the medium representation. -/
theorem claim_C8_witness :
    ∃ img ∈ ([exVideoImage] : List Image),
      selectRandomImage [exVideoImage] 0 = some
        { url := if jsEndsWith img.representations.full ".webm" then
                   img.representations.medium
                 else img.representations.large
          score := img.score
          id := img.id
          tags := img.tags } :=
  claim_C8 [exVideoImage] 0 (by decide)

/-- C10: starting from a duplicate-free `customTags`, the list persisted by
`add` is duplicate-free (set union) and the list persisted by `rm` is a
duplicate-free subsequence of the old list (exact-match filter). -/
theorem claim_C10 (custom : List String) (raw : String) (h : custom.Nodup) :
    (addTags custom raw).Nodup ∧ (rmTags custom raw).Nodup
      ∧ List.Sublist (rmTags custom raw) custom :=
  ⟨jsSetDedup_nodup _, h.filter _, List.filter_sublist _⟩

/-- Witness for C10 at a concrete list and tag string. -/
theorem claim_C10_witness :
    (addTags ["art"] "safe,art").Nodup ∧ (rmTags ["art"] "safe,art").Nodup
      ∧ List.Sublist (rmTags ["art"] "safe,art") ["art"] :=
  claim_C10 ["art"] "safe,art" (by decide)

/-- C6: for a group with no stored record, `getGroupConfig` synthesizes the
default record from the system config, persists it, and returns it; a second
call finds that record, returns it unchanged, and creates nothing new, and
exactly one record for the group exists afterwards. -/
theorem claim_C6 (cfg : Config) (store : Store) (groupId : String)
    (hnone : findGroup store groupId = none) :
    getGroupConfig cfg store groupId
      = (defaultGroupConfig cfg groupId,
         store ++ [defaultGroupConfig cfg groupId])
    ∧ getGroupConfig cfg (store ++ [defaultGroupConfig cfg groupId]) groupId
      = (defaultGroupConfig cfg groupId,
         store ++ [defaultGroupConfig cfg groupId])
    ∧ ((store ++ [defaultGroupConfig cfg groupId]).filter
          (fun g => g.groupId == groupId)).length = 1 := by
  have hd : ((defaultGroupConfig cfg groupId).groupId == groupId) = true := by
    simp [defaultGroupConfig]
  refine ⟨by simp [getGroupConfig, hnone], ?_, ?_⟩
  · have hfound : findGroup (store ++ [defaultGroupConfig cfg groupId]) groupId
        = some (defaultGroupConfig cfg groupId) := by
      rw [findGroup_append_of_none store _ groupId hnone]
      unfold findGroup
      simp [hd]
    simp [getGroupConfig, hfound]
  · rw [List.filter_append, filter_eq_nil_of_find_none store groupId hnone]
    simp [hd]

/-- Witness for C6: a store holding only `g1` has no record for `g2`; the
first call materializes the default record, the second is idempotent. -/
theorem claim_C6_witness :
    getGroupConfig exCfg [exGC] "g2"
      = (defaultGroupConfig exCfg "g2", [exGC] ++ [defaultGroupConfig exCfg "g2"])
    ∧ getGroupConfig exCfg ([exGC] ++ [defaultGroupConfig exCfg "g2"]) "g2"
      = (defaultGroupConfig exCfg "g2", [exGC] ++ [defaultGroupConfig exCfg "g2"])
    ∧ (([exGC] ++ [defaultGroupConfig exCfg "g2"]).filter
          (fun g => g.groupId == "g2")).length = 1 :=
  claim_C6 exCfg [exGC] "g2" (by decide)

/-- C4: a search whose board response has `total: 0`, and one rejected with
HTTP 404, both produce the no-results text `未找到匹配的图片` as the
invocation's reply — the error is converted to a text response inside the
action (the embedding is a total function; nothing escapes to the host) —
and the store is left unchanged. -/
theorem claim_C4 (cfg : Config) (store : Store) (groupId t : String)
    (gc : GroupConfig) (auth : Option Nat) (outcome : HttpOutcome) (k : Nat)
    (hfind : findGroup store groupId = some gc)
    (hen : gc.enabled = true) (ht : (t == "") = false)
    (hnr : isNoResultsOutcome outcome = true) :
    commandAction cfg store (some groupId) auth noOptions (some t) ⟨outcome, k⟩
      = (.text noResultsMsg, store) := by
  simp only [commandAction, getGroupConfig_found cfg store groupId gc hfind]
  cases outcome with
  | success total images =>
    have htot : (total == 0) = true := by
      simpa [isNoResultsOutcome] using hnr
    simp [noOptions, Options.isEmpty, truthyText, ht, hen, searchImages,
      searchTryBody, searchCatchBlock, htot, noResultsMsg]
  | failure msg status body =>
    have hs : (status == some 404) = true := by
      simpa [isNoResultsOutcome] using hnr
    simp [noOptions, Options.isEmpty, truthyText, ht, hen, searchImages,
      searchTryBody, searchCatchBlock, hs, noResultsMsg]

/-- Witness for C4: both no-results cases at concrete inputs. -/
theorem claim_C4_witness :
    commandAction exCfg [exGC] (some "g1") (some 0) noOptions (some "cute")
        ⟨.success 0 [], 3⟩ = (.text noResultsMsg, [exGC])
    ∧ commandAction exCfg [exGC] (some "g1") (some 0) noOptions (some "cute")
        ⟨.failure "Request failed with status code 404" (some 404) none, 3⟩
      = (.text noResultsMsg, [exGC]) :=
  ⟨claim_C4 exCfg [exGC] "g1" "cute" exGC (some 0) (.success 0 []) 3
      (by decide) (by decide) (by decide) (by decide),
   claim_C4 exCfg [exGC] "g1" "cute" exGC (some 0)
      (.failure "Request failed with status code 404" (some 404) none) 3
      (by decide) (by decide) (by decide) (by decide)⟩

/-- C9 (counterexample): for a non-2xx, non-404 response the code rethrows
`new Error(error.message)` — the transport error's own message — and never
reads the response body, where the board's error message resides; the two
differ at this input, so the board's message is not what is surfaced. -/
theorem claim_C9_counterexample :
    searchImages ["safe"] ""
        (.failure "Request failed with status code 500" (some 500)
          (some "Invalid search syntax"))
      = .error "Request failed with status code 500"
    ∧ ("Request failed with status code 500" : String)
        ≠ "Invalid search syntax" :=
  ⟨rfl, by decide⟩

/-- C9 (amended): for every rejection whose status is not 404,
`searchImages` propagates the caught error's `message` property verbatim
(for an HTTP error, the transport library's description of the status), and
the command action returns exactly that message as its text reply. -/
theorem claim_C9_amended (cfg : Config) (store : Store)
    (groupId t msg : String) (gc : GroupConfig) (auth : Option Nat)
    (status : Option Nat) (body : Option String) (k : Nat)
    (hfind : findGroup store groupId = some gc) (hen : gc.enabled = true)
    (ht : (t == "") = false) (h404 : (status == some 404) = false) :
    searchImages (composeTags cfg gc t) cfg.apiKey
        (.failure msg status body) = .error msg
    ∧ commandAction cfg store (some groupId) auth noOptions (some t)
        ⟨.failure msg status body, k⟩ = (.text msg, store) := by
  constructor
  · simp [searchImages, searchTryBody, searchCatchBlock, h404]
  · simp only [commandAction, getGroupConfig_found cfg store groupId gc hfind]
    simp [noOptions, Options.isEmpty, truthyText, ht, hen, searchImages,
      searchTryBody, searchCatchBlock, h404]

/-- Witness for the amended C9 at a concrete 500 response. -/
theorem claim_C9_amended_witness :
    searchImages (composeTags exCfg exGC "cute") exCfg.apiKey
        (.failure "Request failed with status code 500" (some 500)
          (some "Invalid search syntax"))
      = .error "Request failed with status code 500"
    ∧ commandAction exCfg [exGC] (some "g1") (some 0) noOptions (some "cute")
        ⟨.failure "Request failed with status code 500" (some 500)
          (some "Invalid search syntax"), 3⟩
      = (.text "Request failed with status code 500", [exGC]) :=
  claim_C9_amended exCfg [exGC] "g1" "cute"
    "Request failed with status code 500" exGC (some 0) (some 500)
    (some "Invalid search syntax") 3 (by decide) (by decide) (by decide)
    (by decide)

/-- C3 (counterexample): an administrative option invoked with authority 0
does not always yield the permission-denied reply: on a disabled group,
`--offglobal` is answered with the "not enabled" rejection instead (the
stored configuration is still unchanged). -/
theorem claim_C3_counterexample :
    commandAction exCfg [exDisabledGC] (some "g1") (some 0) offglobalOpts
        none exOracle
      = (.text notEnabledMsg, [exDisabledGC])
    ∧ notEnabledMsg ≠ permSearchMsg
    ∧ notEnabledMsg ≠ permGlobalMsg
    ∧ notEnabledMsg ≠ permTagsMsg := by decide

/-- C3 (amended): for a group with a stored record, an invocation carrying
an administrative option with caller authority below 2 (an absent authority
counts as 0, and `--status` not also supplied) is answered case by case:
with `--on`/`--off` supplied, the on/off permission-denied text; otherwise,
on a disabled group, the "not enabled" rejection instead of a permission
text; otherwise `--onglobal`/`--offglobal` get the global-tags
permission-denied text and `--add`/`--rm` the tag-management one.  In every
case no update is issued and the store is unchanged. -/
theorem claim_C3_amended (cfg : Config) (store : Store) (groupId : String)
    (gc : GroupConfig) (authority : Option Nat) (opts : Options)
    (text : Option String) (oracle : SearchOracle)
    (hfind : findGroup store groupId = some gc)
    (hauth : authority.getD 0 < 2) (hstatus : opts.status = false)
    (hadmin : opts.onOpt = true ∨ opts.offOpt = true ∨ opts.onglobal = true
      ∨ opts.offglobal = true ∨ truthyText opts.add = true
      ∨ truthyText opts.rm = true) :
    ((opts.onOpt || opts.offOpt) = true →
      commandAction cfg store (some groupId) authority opts text oracle
        = (.text permSearchMsg, store))
    ∧ ((opts.onOpt || opts.offOpt) = false → gc.enabled = false →
      commandAction cfg store (some groupId) authority opts text oracle
        = (.text notEnabledMsg, store))
    ∧ ((opts.onOpt || opts.offOpt) = false → gc.enabled = true →
      (opts.onglobal || opts.offglobal) = true →
      commandAction cfg store (some groupId) authority opts text oracle
        = (.text permGlobalMsg, store))
    ∧ ((opts.onOpt || opts.offOpt) = false → gc.enabled = true →
      (opts.onglobal || opts.offglobal) = false →
      commandAction cfg store (some groupId) authority opts text oracle
        = (.text permTagsMsg, store)) := by
  have hne : opts.isEmpty = false := by
    rcases hadmin with h | h | h | h | h | h
    · simp [Options.isEmpty, h]
    · simp [Options.isEmpty, h]
    · simp [Options.isEmpty, h]
    · simp [Options.isEmpty, h]
    · simp [Options.isEmpty, truthyText_ne_none _ h]
    · simp [Options.isEmpty, truthyText_ne_none _ h]
  refine ⟨fun honoff => ?_, fun honoff hgce => ?_,
    fun honoff hgce hglob => ?_, fun honoff hgce hglob => ?_⟩
  · simp [commandAction, getGroupConfig_found cfg store groupId gc hfind,
      hne, hstatus, honoff, hauth]
  · simp [commandAction, getGroupConfig_found cfg store groupId gc hfind,
      hne, hstatus, honoff, hgce]
  · simp [commandAction, getGroupConfig_found cfg store groupId gc hfind,
      hne, hstatus, honoff, hgce, hglob, hauth]
  · have haddrm : (truthyText opts.add || truthyText opts.rm) = true := by
      rcases hadmin with h | h | h | h | h | h
      · simp [h] at honoff
      · simp [h] at honoff
      · simp [h] at hglob
      · simp [h] at hglob
      · simp [h]
      · simp [h]
    simp [commandAction, getGroupConfig_found cfg store groupId gc hfind,
      hne, hstatus, honoff, hgce, hglob, haddrm, hauth]

/-- Witness for the amended C3: `--offglobal` with no authority on a
disabled, stored group gets specifically the "not enabled" rejection with
an unchanged store. -/
theorem claim_C3_amended_witness :
    commandAction exCfg [exDisabledGC] (some "g1") none offglobalOpts
        none exOracle
      = (.text notEnabledMsg, [exDisabledGC]) :=
  (claim_C3_amended exCfg [exDisabledGC] "g1" exDisabledGC none offglobalOpts
    none exOracle (by decide) (by decide) (by decide)
    (Or.inr (Or.inr (Or.inr (Or.inl (by decide)))))).2.1
    (by decide) (by decide)

/-- C5: dispatch priority on a disabled group with a stored record:
`--status` is still answered with the status summary; `--on` and `--off`
with authority ≥ 2 still reach the on/off branch and set `enabled` to true
resp. false; `--on`/`--off` with authority below 2 get the on/off
permission-denied reply (not the "not enabled" rejection) with no update;
and every later operation — onglobal, offglobal, add, rm, tags, and
free-text search — is rejected with the "not enabled" message and issues no
update. -/
theorem claim_C5 (cfg : Config) (store : Store) (groupId : String)
    (gc : GroupConfig) (hfind : findGroup store groupId = some gc)
    (hdis : gc.enabled = false) :
    (∀ (authority : Option Nat) (opts : Options) (text : Option String)
        (oracle : SearchOracle), opts.status = true →
      commandAction cfg store (some groupId) authority opts text oracle
        = (.text (statusMessage gc), store))
    ∧ (∀ (auth : Nat) (text : Option String) (oracle : SearchOracle),
        2 ≤ auth →
      commandAction cfg store (some groupId) (some auth) onOpts text oracle
        = (.text ("搜图功能已在本群" ++ "开启"),
           updateGroupConfig store groupId ⟨some true, none, none⟩)
      ∧ findGroup (updateGroupConfig store groupId ⟨some true, none, none⟩)
          groupId = some { gc with enabled := true })
    ∧ (∀ (auth : Nat) (text : Option String) (oracle : SearchOracle),
        2 ≤ auth →
      commandAction cfg store (some groupId) (some auth) offOpts text oracle
        = (.text ("搜图功能已在本群" ++ "关闭"),
           updateGroupConfig store groupId ⟨some false, none, none⟩)
      ∧ findGroup (updateGroupConfig store groupId ⟨some false, none, none⟩)
          groupId = some { gc with enabled := false })
    ∧ (∀ (authority : Option Nat) (opts : Options) (text : Option String)
        (oracle : SearchOracle),
        authority.getD 0 < 2 → opts.status = false →
        (opts.onOpt || opts.offOpt) = true →
      commandAction cfg store (some groupId) authority opts text oracle
        = (.text permSearchMsg, store))
    ∧ (∀ (authority : Option Nat) (opts : Options) (text : Option String)
        (oracle : SearchOracle),
        opts.status = false → opts.onOpt = false → opts.offOpt = false →
        (opts.onglobal = true ∨ opts.offglobal = true
          ∨ truthyText opts.add = true ∨ truthyText opts.rm = true
          ∨ opts.tags = true ∨ truthyText text = true) →
      commandAction cfg store (some groupId) authority opts text oracle
        = (.text notEnabledMsg, store)) := by
  refine ⟨?_, ?_, ?_, ?_, ?_⟩
  · intro authority opts text oracle hstatus
    have hne : opts.isEmpty = false := by simp [Options.isEmpty, hstatus]
    simp [commandAction, getGroupConfig_found cfg store groupId gc hfind,
      hne, hstatus]
  · intro auth text oracle hauth
    have h2 : ¬ (auth < 2) := not_lt.mpr hauth
    constructor
    · simp [commandAction, getGroupConfig_found cfg store groupId gc hfind,
        onOpts, Options.isEmpty, h2]
    · rw [findGroup_update, hfind]
      rfl
  · intro auth text oracle hauth
    have h2 : ¬ (auth < 2) := not_lt.mpr hauth
    constructor
    · simp [commandAction, getGroupConfig_found cfg store groupId gc hfind,
        offOpts, Options.isEmpty, h2]
    · rw [findGroup_update, hfind]
      rfl
  · intro authority opts text oracle hauth hstatus honoff
    have hne : opts.isEmpty = false := by
      cases ho : opts.onOpt with
      | true => simp [Options.isEmpty, ho]
      | false =>
        have hoff : opts.offOpt = true := by simpa [ho] using honoff
        simp [Options.isEmpty, hoff]
    simp [commandAction, getGroupConfig_found cfg store groupId gc hfind,
      hne, hstatus, honoff, hauth]
  · intro authority opts text oracle hstatus hon hoff hlater
    have hhelp : (!truthyText text && opts.isEmpty) = false := by
      rcases hlater with h | h | h | h | h | h
      · simp [Options.isEmpty, h]
      · simp [Options.isEmpty, h]
      · simp [Options.isEmpty, truthyText_ne_none _ h]
      · simp [Options.isEmpty, truthyText_ne_none _ h]
      · simp [Options.isEmpty, h]
      · simp [h]
    simp [commandAction, getGroupConfig_found cfg store groupId gc hfind,
      hhelp, hstatus, hon, hoff, hdis]

/-- Witness for C5: on the disabled group `g1`, `--on` with authority 3
turns search on (the stored record now has `enabled = true`), `--off` with
authority 3 reaches the off branch, and `--on` with authority 0 gets the
on/off permission reply with an unchanged store. -/
theorem claim_C5_witness :
    (commandAction exCfg [exDisabledGC] (some "g1") (some 3) onOpts
        none exOracle
      = (.text ("搜图功能已在本群" ++ "开启"),
         updateGroupConfig [exDisabledGC] "g1" ⟨some true, none, none⟩)
    ∧ findGroup (updateGroupConfig [exDisabledGC] "g1" ⟨some true, none, none⟩)
        "g1" = some { exDisabledGC with enabled := true })
    ∧ commandAction exCfg [exDisabledGC] (some "g1") (some 3) offOpts
        none exOracle
      = (.text ("搜图功能已在本群" ++ "关闭"),
         updateGroupConfig [exDisabledGC] "g1" ⟨some false, none, none⟩)
    ∧ commandAction exCfg [exDisabledGC] (some "g1") (some 0) onOpts
        none exOracle
      = (.text permSearchMsg, [exDisabledGC]) :=
  ⟨(claim_C5 exCfg [exDisabledGC] "g1" exDisabledGC (by decide)
      (by decide)).2.1 3 none exOracle (by decide),
   ((claim_C5 exCfg [exDisabledGC] "g1" exDisabledGC (by decide)
      (by decide)).2.2.1 3 none exOracle (by decide)).1,
   (claim_C5 exCfg [exDisabledGC] "g1" exDisabledGC (by decide)
      (by decide)).2.2.2.1 (some 0) onOpts none exOracle (by decide)
      (by decide) (by decide)⟩
